import Mathlib

set_option maxHeartbeats 1000000

/-
Shallow embedding of the KnC ASIC driver engine from src/driver-knc.c:
the local pending work queue, the in-flight registry (a uthash table keyed
by the 15-bit device identifier), adaptive capacity discovery, flush
coordination, and the SPI poll cycle (knc_poll), together with the
producer entry points knc_queue_append and knc_queue_flush.

Modelling conventions:
  - Machine integers are Nat (uint8_t buffer bytes, uint16_t workaccept,
    the monotone next_id counter, masked with % 2^15 exactly where the C
    masks with & 0x7fff) or Int (the signed ints workqueue_size and
    workqueue_max).
  - The SPI transaction is split at the exchange: the outgoing buffer is
    computed as a List SpiByte (data bytes from spi_emit_buf, explicit nop
    marks from spi_emit_nop), and the incoming buffer is an input
    (rx : Nat → Nat, byte at each offset) together with the Bool result of
    the bus exchange.  knc_poll in the C source discards the result of
    spi_txrx, which the model mirrors by taking it as an unused argument.
  - External calls (inc_hw_errors2, submit_nonce, hashes_done2) become an
    event list; the processor-walk routing resolves to the decoded
    (asicno, coreno) pair, the Core Registry's routing key.
  - uthash: HASH_ADD_INT appends in application order (tbl->tail is the
    most recently added entry); HASH_FIND_INT finds the most recently
    added entry with the key (bucket insertion is at the bucket head);
    HASH_DEL removes exactly the found entry; HASH_ITER iterates in
    application order.  The registry is a List (Nat × Work) in
    application order.
-/

/-- A work item as used by the driver: `midstate` models the 32-byte
`work->midstate` array and `data` the `work->data` block-header bytes
(the encoder reads `data[0x40..0x4b]`).  Entries are byte values. -/
structure Work where
  midstate : List Nat
  data : List Nat
deriving DecidableEq, Repr

/-- The in-flight registry `knc->devicework`: a uthash table keyed by
`work->device_id`, modelled in application (insertion) order. -/
abbrev DeviceWork := List (Nat × Work)

/-- Per-device engine state: the fields of `struct knc_device` that the
engine mutates, plus `thr->queue_full`, which the driver maintains
alongside the queue. -/
structure KncState where
  need_flush : Bool
  workqueue : List Work
  workqueue_size : Int
  workqueue_max : Int
  next_id : Nat
  devicework : DeviceWork
  queue_full : Bool
deriving DecidableEq, Repr

def KNC_POLL_INTERVAL_US : Nat := 10000

def KNC_REQ_SUBMIT_WORK : Nat := 2
def KNC_REQ_FLUSH_QUEUE : Nat := 3
def KNC_REPLY_NONCE_FOUND : Nat := 1
def KNC_REPLY_WORK_DONE : Nat := 2

/-- Initialisation, `knc_init`: `*knc = (struct knc_device){ .workqueue_max = 1, ... }` —
all other fields zero-initialised (empty queue, empty registry,
`next_id = 0`, `need_flush = false`). -/
def knc_init : KncState :=
  { need_flush := false
    workqueue := []
    workqueue_size := 0
    workqueue_max := 1
    next_id := 0
    devicework := []
    queue_full := false }

/-- Model of `get_u16be`: big-endian 16-bit read of two buffer bytes. -/
def get_u16be (b : Nat → Nat) (p : Nat) : Nat :=
  (b p <<< 8) ||| b (p + 1)

/-- Model of `get_u32be`: big-endian 32-bit read of four buffer bytes. -/
def get_u32be (b : Nat → Nat) (p : Nat) : Nat :=
  (b p <<< 0x18) ||| (b (p + 1) <<< 0x10) ||| (b (p + 2) <<< 8) ||| b (p + 3)

/-- Model of `le32toh` on the little-endian host the driver runs on: identity. -/
def le32toh (x : Nat) : Nat := x

/-- Lookup, `HASH_FIND_INT(knc->devicework, &i, work)`: uthash finds the most
recently added entry with the key (new entries go to the bucket head). -/
def hashFindInt (dw : DeviceWork) (k : Nat) : Option Work :=
  (dw.reverse.find? (fun e => e.1 == k)).map Prod.snd

/-- Removal, `HASH_DEL(knc->devicework, work)`, of the entry found by
`hashFindInt`: remove the most recently added entry with the key. -/
def hashDelLast (dw : DeviceWork) (k : Nat) : DeviceWork :=
  (dw.reverse.eraseP (fun e => e.1 == k)).reverse

/-- Model of `knc_prune_local_queue`: remove every work with `stale_work(work,
false)` (each removal also decrements `workqueue_size`), then set
`thr->queue_full = (knc->workqueue_size >= knc->workqueue_max)`. -/
def knc_prune_local_queue (stale : Work → Bool → Bool) (st : KncState) : KncState :=
  let kept := st.workqueue.filter (fun w => !stale w false)
  let removed : Int := ((st.workqueue.length - kept.length : Nat) : Int)
  { st with
    workqueue := kept
    workqueue_size := st.workqueue_size - removed
    queue_full := decide (st.workqueue_size - removed ≥ st.workqueue_max) }

/-- Model of `knc_queue_append`: if the queue is at capacity, prune and bail out
with `false` if still full; otherwise `DL_APPEND` the work, bump the
size, recompute `thr->queue_full`, and prune once more when full. -/
def knc_queue_append (stale : Work → Bool → Bool) (st : KncState) (w : Work) :
    Bool × KncState :=
  let go : KncState → Bool × KncState := fun s =>
    let s1 := { s with
      workqueue := s.workqueue ++ [w]
      workqueue_size := s.workqueue_size + 1 }
    let s2 := { s1 with queue_full := decide (s1.workqueue_size ≥ s1.workqueue_max) }
    (true, if s2.queue_full then knc_prune_local_queue stale s2 else s2)
  if st.workqueue_size ≥ st.workqueue_max then
    let st1 := knc_prune_local_queue stale st
    if st1.queue_full then (false, st1)
    else go st1
  else go st

/-- Model of `knc_queue_flush`: discard the whole local queue (decrementing the
size per element), clear `thr->queue_full`, then read the most recently
added in-flight entry with `HASH_LAST_ADDED` — which dereferences
`knc->devicework->hh.tbl` and so crashes (modelled as `none`) when the
registry is empty — and, if that entry is stale under the strict check,
set `need_flush` and request an immediate poll (the returned Bool). -/
def knc_queue_flush (stale : Work → Bool → Bool) (st : KncState) :
    Option (KncState × Bool) :=
  let st1 := { st with
    workqueue := []
    workqueue_size := st.workqueue_size - (st.workqueue.length : Int)
    queue_full := false }
  match st1.devicework.getLast? with
  | none => none
  | some e =>
    if stale e.2 true then some ({ st1 with need_flush := true }, true)
    else some (st1, false)

/-- One element of the outgoing SPI buffer: a byte written by
`spi_emit_buf`, or a no-op filler from `spi_emit_nop`. -/
inductive SpiByte where
  | data (b : Nat) : SpiByte
  | nop : SpiByte
deriving DecidableEq, Repr

/-- The 0x30-byte work-submission frame built in `knc_poll`'s loop:
command nibble in the high bits of byte 0, the 15-bit identifier in
bytes 2-3, the midstate byte-reversed at 4..0x23, and the data tail
byte-reversed at 0x24..0x2f. -/
def knc_submit_frame (workid : Nat) (w : Work) : List Nat :=
  (List.range 0x30).map fun i =>
    if i = 0 then KNC_REQ_SUBMIT_WORK <<< 4
    else if i = 1 then 0
    else if i = 2 then (workid >>> 8) &&& 0x7f
    else if i = 3 then workid &&& 0xff
    else if i < 0x24 then w.midstate.getD (0x1f - (i - 4)) 0
    else w.data.getD (0x4b - (i - 0x24)) 0

/-- The flush emission in `knc_poll`: `buf[0] = KNC_REQ_FLUSH_QUEUE << 4`
followed by `spi_emit_buf(spi, buf, sizeof(buf))` — all 0x30 bytes of the
stack buffer are emitted, byte 0 being the flush command and bytes
1..0x2f whatever the buffer held beforehand (`buf0`). -/
def knc_flush_emission (buf0 : Nat → Nat) : List Nat :=
  (List.range 0x30).map fun i =>
    if i = 0 then KNC_REQ_FLUSH_QUEUE <<< 4 else buf0 i

/-- The outgoing buffer built by `knc_poll` before the exchange: the
optional flush emission, one submission frame per pending work (FIFO
order, provisional identifiers `next_id + i`), then nop fill up to the
0x1000-byte transfer size. -/
def knc_poll_txbuf (nf : Bool) (next_id : Nat) (q : List Work) (buf0 : Nat → Nat) :
    List SpiByte :=
  let pre : List Nat := if nf then knc_flush_emission buf0 else []
  let frames : List Nat :=
    (q.enum.map fun (iw : Nat × Work) => knc_submit_frame (next_id + iw.1) iw.2).flatten
  (pre ++ frames).map SpiByte.data ++
    List.replicate (0x1000 - (pre ++ frames).length) SpiByte.nop

/-- The buffer sent by `knc_clean_flush` at initialisation: a single
1-byte flush frame followed by nop fill. -/
def knc_clean_flush_txbuf : List SpiByte :=
  SpiByte.data (KNC_REQ_FLUSH_QUEUE <<< 4) ::
    List.replicate (0x1000 - 1) SpiByte.nop

/-- Externally observable calls made while processing reply records:
`inc_hw_errors2` for an unknown identifier, `submit_nonce` for a matched
NonceFound, `hashes_done2` for a matched WorkDone.  The first two Nats
are the decoded routing key (asicno, coreno). -/
inductive KncEvent where
  | hwError (asicno : Nat) (coreno : Nat) (nonce : Option Nat) : KncEvent
  | nonceFound (asicno : Nat) (coreno : Nat) (w : Work) (nonce : Nat) : KncEvent
  | hashesDone (asicno : Nat) (coreno : Nat) (hashes : Nat) : KncEvent
deriving DecidableEq, Repr

/-- The offsets at which `knc_poll`'s while-loop reads 0xc-byte reply
records out of a `rem`-byte receive buffer: starting at the buffer head
it first advances 0xc (over the 12-byte transaction header) and
processes a record whenever at least 0xc bytes remain, i.e. offsets
`0xc * (k+1)` for `0xc * (k+1) ≤ rem - 0xc`. -/
def spiRecordOffsets (rem : Nat) : List Nat :=
  (List.range ((rem - 0xc) / 0xc)).map (fun k => 0xc * (k + 1))

/-- The body of `knc_poll`'s record loop for the record at offset `off`:
skip unless the type bits say NonceFound or WorkDone; decode the routing
key and the identifier; an unknown identifier yields `inc_hw_errors2`
(with the decoded nonce for NonceFound); a known identifier yields
`submit_nonce` (registry untouched) for NonceFound, or `HASH_DEL` +
`free_work` + `hashes_done2(mythr, 0x100000000, NULL)` for WorkDone. -/
def knc_process_record (rx : Nat → Nat) (acc : DeviceWork × List KncEvent)
    (off : Nat) : DeviceWork × List KncEvent :=
  let rtype := rx off >>> 6
  if rtype ≠ KNC_REPLY_NONCE_FOUND ∧ rtype ≠ KNC_REPLY_WORK_DONE then acc
  else
    let asicno := (rx off &&& 0x38) >>> 3
    let coreno := get_u32be rx (off + 8)
    let i := get_u16be rx (off + 2)
    match hashFindInt acc.1 i with
    | none =>
      if rtype = KNC_REPLY_NONCE_FOUND then
        (acc.1, acc.2 ++ [KncEvent.hwError asicno coreno
          (some (le32toh (get_u32be rx (off + 4))))])
      else
        (acc.1, acc.2 ++ [KncEvent.hwError asicno coreno none])
    | some w =>
      if rtype = KNC_REPLY_NONCE_FOUND then
        (acc.1, acc.2 ++ [KncEvent.nonceFound asicno coreno w
          (le32toh (get_u32be rx (off + 4)))])
      else
        (hashDelLast acc.1 i,
         acc.2 ++ [KncEvent.hashesDone asicno coreno 0x100000000])

/-- The whole record loop: fold the record processor over the scanned
offsets of the 0x1000-byte receive buffer. -/
def knc_poll_records (rx : Nat → Nat) (dw : DeviceWork) :
    DeviceWork × List KncEvent :=
  (spiRecordOffsets 0x1000).foldl (knc_process_record rx) (dw, [])

/-- Lines 504-513 of knc_poll: if `need_flush` is (still) set, clear it,
`HASH_ITER`-drain the whole in-flight registry (freeing every work), and
zero the poll delay. -/
def knc_poll_flush_stage (st : KncState) (delay : Nat) : KncState × Nat :=
  if st.need_flush then
    ({ st with need_flush := false, devicework := [] }, 0)
  else (st, delay)

/-- Lines 515-532 of knc_poll: if any work was accepted, first widen
`workqueue_max` (and zero the delay) when `workaccept >= workqueue_max`,
then the `DL_FOREACH_SAFE` loop removes the first
`min workaccept |queue|` pending works in FIFO order, assigns each
`device_id = knc->next_id++ & 0x7fff`, and `HASH_ADD`s it (appending in
application order); finally recompute `thr->queue_full`. -/
def knc_poll_accept_stage (workaccept : Nat) (st : KncState) (delay : Nat) :
    KncState × Nat :=
  if workaccept ≠ 0 then
    let md : Int × Nat :=
      if (workaccept : Int) ≥ st.workqueue_max then ((workaccept : Int), 0)
      else (st.workqueue_max, delay)
    let k := min workaccept st.workqueue.length
    let st4 := { st with
      workqueue := st.workqueue.drop k
      workqueue_size := st.workqueue_size - (k : Int)
      workqueue_max := md.1
      next_id := st.next_id + k
      devicework := st.devicework ++
        (st.workqueue.take k).enum.map
          (fun (iw : Nat × Work) => ((st.next_id + iw.1) % 0x8000, iw.2)) }
    ({ st4 with queue_full := decide (st4.workqueue_size ≥ st4.workqueue_max) }, md.2)
  else (st, delay)

/-- The result of one `knc_poll` invocation: the new engine state, the
externally observable record-routing events in order, the scheduled
delay until the next poll, and the outgoing buffer that was sent. -/
structure KncPollResult where
  st : KncState
  events : List KncEvent
  delay_usecs : Nat
  txbuf : List SpiByte

/-- Model of `knc_poll`: prune the local queue; build the outgoing buffer
(optional flush emission, then one frame per pending work tagged with
provisional identifiers starting at `next_id`, then nop fill); perform
the exchange — whose Bool result the C code discards, hence the unused
`txok` argument; read the big-endian accepted count at bytes 6-7;
run the record loop; then the flush stage and the acceptance stage;
finally schedule the next poll after `delay_usecs`. -/
def knc_poll (stale : Work → Bool → Bool) (st0 : KncState) (buf0 : Nat → Nat)
    (txok : Bool) (rx : Nat → Nat) : KncPollResult :=
  let st1 := knc_prune_local_queue stale st0
  let txbuf := knc_poll_txbuf st1.need_flush st1.next_id st1.workqueue buf0
  let workaccept := get_u16be rx 6
  let rr := knc_poll_records rx st1.devicework
  let fl := knc_poll_flush_stage { st1 with devicework := rr.1 } KNC_POLL_INTERVAL_US
  let ac := knc_poll_accept_stage workaccept fl.1 fl.2
  { st := ac.1, events := rr.2, delay_usecs := ac.2, txbuf := txbuf }

/-- One invocation of an engine entry point, as dispatched by the host
scheduler through `knc_drv`. -/
inductive KncOp where
  | append (w : Work) : KncOp
  | flush : KncOp
  | poll (buf0 : Nat → Nat) (txok : Bool) (rx : Nat → Nat) : KncOp

/-- Step the engine by one entry-point call; `none` models the crash of
`knc_queue_flush` on an empty in-flight registry. -/
def knc_step (stale : Work → Bool → Bool) (st : KncState) : KncOp → Option KncState
  | KncOp.append w => some (knc_queue_append stale st w).2
  | KncOp.flush => (knc_queue_flush stale st).map Prod.fst
  | KncOp.poll buf0 txok rx => some (knc_poll stale st buf0 txok rx).st

/-- Run a sequence of entry-point calls. -/
def knc_run (stale : Work → Bool → Bool) (st : KncState) : List KncOp → Option KncState
  | [] => some st
  | op :: ops =>
    match knc_step stale st op with
    | none => none
    | some st1 => knc_run stale st1 ops

/-- Decoder for the identifier field of a request frame (bytes 2-3,
big-endian, top bit of byte 2 reserved). -/
def frame_work_id (fr : List Nat) : Nat :=
  fr.getD 2 0 * 0x100 + fr.getD 3 0

/- Concrete fixtures used by witnesses and counterexamples. -/

/-- A staleness predicate that judges nothing stale. -/
def stale0 : Work → Bool → Bool := fun _ _ => false

def w0 : Work := { midstate := List.replicate 0x20 0, data := List.replicate 0x50 0 }

def w1 : Work := { midstate := List.replicate 0x20 1, data := List.replicate 0x50 1 }

/-- An all-zero receive buffer: accepted count 0, every record empty. -/
def rxZero : Nat → Nat := fun _ => 0

/-- A receive buffer whose header says accepted count 1 and which holds
no reply records. -/
def rxAccept1 : Nat → Nat := fun n => if n = 7 then 1 else 0

/-- Zeroed initial contents for knc_poll's stack frame buffer. -/
def buf0c : Nat → Nat := fun _ => 0

def c1state : KncState :=
  { knc_init with workqueue := [w0], workqueue_size := 1, queue_full := true }

def c2state : KncState :=
  { knc_init with need_flush := true, devicework := [(5, w0)] }

def c3state : KncState :=
  { knc_init with
    workqueue := [w1]
    workqueue_size := 1
    queue_full := true
    devicework := [(0, w0)] }

def c4state : KncState :=
  { knc_init with
    need_flush := true
    workqueue := [w1]
    workqueue_size := 1
    queue_full := true
    devicework := [(3, w0)] }

def c5state : KncState := { knc_init with need_flush := true }

def rx9 : Nat → Nat := fun n => if n = 12 then 0x40 else if n = 15 then 7 else 0

set_option maxRecDepth 100000

/- Helper lemmas (shared across claims). -/

theorem prune_result (stale : Work → Bool → Bool) (st : KncState) :
    knc_prune_local_queue stale st =
      { st with
        workqueue := st.workqueue.filter (fun w => !stale w false)
        workqueue_size := st.workqueue_size -
          ((st.workqueue.length -
            (st.workqueue.filter (fun w => !stale w false)).length : Nat) : Int)
        queue_full := decide (st.workqueue_size -
          ((st.workqueue.length -
            (st.workqueue.filter (fun w => !stale w false)).length : Nat) : Int) ≥
          st.workqueue_max) } := rfl

theorem prune_eq_of_no_stale (stale : Work → Bool → Bool) (st : KncState)
    (h : ∀ w ∈ st.workqueue, stale w false = false) :
    knc_prune_local_queue stale st =
      { st with queue_full := decide (st.workqueue_size ≥ st.workqueue_max) } := by
  have hq : st.workqueue.filter (fun w => !stale w false) = st.workqueue :=
    List.filter_eq_self.mpr (by intro a ha; simp [h a ha])
  simp [knc_prune_local_queue, hq]

theorem prune_max (stale : Work → Bool → Bool) (st : KncState) :
    (knc_prune_local_queue stale st).workqueue_max = st.workqueue_max := rfl

theorem pruned_size (size max : Int) (qlen klen : Nat)
    (h1 : size = (qlen : Int)) (hk : klen ≤ qlen) :
    size - ((qlen - klen : Nat) : Int) = (klen : Int) := by
  rw [Nat.cast_sub hk]; omega

theorem append_max (stale : Work → Bool → Bool) (st : KncState) (w : Work) :
    ((knc_queue_append stale st w).2).workqueue_max = st.workqueue_max := by
  simp only [knc_queue_append]
  split
  · split
    · rfl
    · split <;> rfl
  · split <;> rfl

theorem flush_pres_max (stale : Work → Bool → Bool) (st st1 : KncState) (b : Bool)
    (h : knc_queue_flush stale st = some (st1, b)) :
    st1.workqueue_max = st.workqueue_max := by
  simp only [knc_queue_flush] at h
  rcases hl : st.devicework.getLast? with _ | e
  · rw [hl] at h; cases h
  · rw [hl] at h
    dsimp only at h
    by_cases hs : stale e.2 true
    · rw [if_pos hs] at h; cases h; rfl
    · rw [if_neg hs] at h; cases h; rfl

theorem flush_stage_max (st : KncState) (d : Nat) :
    ((knc_poll_flush_stage st d).1).workqueue_max = st.workqueue_max := by
  simp only [knc_poll_flush_stage]; split <;> rfl

theorem accept_stage_max (wa : Nat) (st : KncState) (d : Nat) :
    st.workqueue_max ≤ ((knc_poll_accept_stage wa st d).1).workqueue_max := by
  simp only [knc_poll_accept_stage]
  split
  · by_cases hge : (wa : Int) ≥ st.workqueue_max
    · simp [hge]
    · simp [hge]
  · exact le_refl _

theorem poll_max (stale : Work → Bool → Bool) (st : KncState) (buf0 : Nat → Nat)
    (txok : Bool) (rx : Nat → Nat) :
    st.workqueue_max ≤ ((knc_poll stale st buf0 txok rx).st).workqueue_max := by
  simp only [knc_poll]
  refine le_trans ?_ (accept_stage_max _ _ _)
  rw [flush_stage_max]
  exact le_of_eq (prune_max stale st).symm

theorem step_max (stale : Work → Bool → Bool) (st : KncState) (op : KncOp)
    (st1 : KncState) (h : knc_step stale st op = some st1) :
    st.workqueue_max ≤ st1.workqueue_max := by
  cases op with
  | append w =>
    simp only [knc_step] at h
    cases h
    exact le_of_eq (append_max stale st w).symm
  | flush =>
    simp only [knc_step] at h
    rcases hf : knc_queue_flush stale st with _ | ⟨st2, b⟩
    · rw [hf] at h; cases h
    · rw [hf] at h; cases h
      exact le_of_eq (flush_pres_max stale st st2 b hf).symm
  | poll buf0 txok rx =>
    simp only [knc_step] at h
    cases h
    exact poll_max stale st buf0 txok rx

theorem run_max (stale : Work → Bool → Bool) (ops : List KncOp) :
    ∀ st st1 : KncState, knc_run stale st ops = some st1 →
      st.workqueue_max ≤ st1.workqueue_max := by
  induction ops with
  | nil =>
    intro st st1 h
    simp only [knc_run, Option.some.injEq] at h
    exact le_of_eq (congrArg KncState.workqueue_max h)
  | cons op ops ih =>
    intro st st1 h
    simp only [knc_run] at h
    rcases hs : knc_step stale st op with _ | st2
    · rw [hs] at h; cases h
    · rw [hs] at h
      exact le_trans (step_max stale st op st2 hs) (ih st2 st1 h)

/-- Claim C7 (confirmed): the discovered capacity `workqueue_max` starts
at 1 at device initialisation and is non-decreasing across every
sequence of enqueue, flush, and poll operations — no operation ever
assigns it a smaller value. -/
theorem c7_capacity_starts_at_one_and_never_shrinks :
    knc_init.workqueue_max = 1 ∧
    (∀ (stale : Work → Bool → Bool) (st : KncState) (op : KncOp) (st1 : KncState),
      knc_step stale st op = some st1 → st.workqueue_max ≤ st1.workqueue_max) ∧
    (∀ (stale : Work → Bool → Bool) (ops : List KncOp) (st1 : KncState),
      knc_run stale knc_init ops = some st1 → 1 ≤ st1.workqueue_max) := by
  refine ⟨rfl, step_max, ?_⟩
  intro stale ops st1 h
  exact le_trans (le_of_eq rfl) (run_max stale ops knc_init st1 h)

/-- Witness for C7: one enqueue step from the initial state keeps the
capacity at least as large. -/
theorem c7_witness :
    knc_init.workqueue_max ≤
      ((knc_queue_append stale0 knc_init w0).2).workqueue_max :=
  c7_capacity_starts_at_one_and_never_shrinks.2.1 stale0 knc_init
    (KncOp.append w0) (knc_queue_append stale0 knc_init w0).2 rfl

/-- Claim C10 (confirmed): `knc_queue_flush` unconditionally reads the
most recently added in-flight entry via `HASH_LAST_ADDED`, which
dereferences the null uthash table pointer when the registry is empty;
the call crashes (returns `none` in the model) exactly when
`devicework` is empty, and is total whenever at least one item is in
flight. -/
theorem c10_flush_crashes_iff_registry_empty (stale : Work → Bool → Bool)
    (st : KncState) :
    (knc_queue_flush stale st = none ↔ st.devicework = []) ∧
    (st.devicework ≠ [] → (knc_queue_flush stale st).isSome = true) := by
  constructor
  · simp only [knc_queue_flush]
    rcases hl : st.devicework.getLast? with _ | e
    · simp only [List.getLast?_eq_none_iff] at hl
      simp [hl]
    · have hne : st.devicework ≠ [] := by
        intro he; rw [he] at hl; cases hl
      dsimp only
      constructor
      · intro h
        by_cases hs : stale e.2 true
        · rw [if_pos hs] at h; cases h
        · rw [if_neg hs] at h; cases h
      · intro h; exact absurd h hne
  · intro hne
    simp only [knc_queue_flush]
    rcases hl : st.devicework.getLast? with _ | e
    · simp only [List.getLast?_eq_none_iff] at hl
      exact absurd hl hne
    · dsimp only
      by_cases hs : stale e.2 true
      · rw [if_pos hs]; rfl
      · rw [if_neg hs]; rfl

/-- Witness for C10: flushing with one item in flight does not crash. -/
theorem c10_witness :
    (knc_queue_flush stale0
      { knc_init with devicework := [(0, w0)] }).isSome = true :=
  (c10_flush_crashes_iff_registry_empty stale0
    { knc_init with devicework := [(0, w0)] }).2 (by decide)

theorem process_record_skip (rx : Nat → Nat) (acc : DeviceWork × List KncEvent)
    (off : Nat) (h : rx off >>> 6 ≠ KNC_REPLY_NONCE_FOUND ∧
      rx off >>> 6 ≠ KNC_REPLY_WORK_DONE) :
    knc_process_record rx acc off = acc := by
  simp only [knc_process_record]
  rw [if_pos h]

theorem records_fold_noop (rx : Nat → Nat) (offs : List Nat) :
    ∀ acc : DeviceWork × List KncEvent,
      (∀ o ∈ offs, rx o >>> 6 ≠ KNC_REPLY_NONCE_FOUND ∧
        rx o >>> 6 ≠ KNC_REPLY_WORK_DONE) →
      offs.foldl (knc_process_record rx) acc = acc := by
  induction offs with
  | nil => intro acc h; rfl
  | cons o offs ih =>
    intro acc h
    simp only [List.foldl_cons]
    rw [process_record_skip rx acc o (h o (List.mem_cons_self o offs))]
    exact ih acc (fun o2 h2 => h o2 (List.mem_cons_of_mem o h2))

theorem poll_records_noop (rx : Nat → Nat) (dw : DeviceWork)
    (h : ∀ o ∈ spiRecordOffsets 0x1000, rx o >>> 6 ≠ KNC_REPLY_NONCE_FOUND ∧
      rx o >>> 6 ≠ KNC_REPLY_WORK_DONE) :
    knc_poll_records rx dw = (dw, []) :=
  records_fold_noop rx (spiRecordOffsets 0x1000) (dw, []) h

theorem accept_stage_zero (st : KncState) (d : Nat) :
    knc_poll_accept_stage 0 st d = (st, d) := by
  simp [knc_poll_accept_stage]

theorem accept_stage_spec (k : Nat) (st : KncState) (d : Nat) (hk0 : k ≠ 0)
    (hk : k ≤ st.workqueue.length) :
    knc_poll_accept_stage k st d =
      ({ need_flush := st.need_flush
         workqueue := st.workqueue.drop k
         workqueue_size := st.workqueue_size - (k : Int)
         workqueue_max :=
           if (k : Int) ≥ st.workqueue_max then (k : Int) else st.workqueue_max
         next_id := st.next_id + k
         devicework := st.devicework ++
           (st.workqueue.take k).enum.map
             (fun (iw : Nat × Work) => ((st.next_id + iw.1) % 0x8000, iw.2))
         queue_full := decide (st.workqueue_size - (k : Int) ≥
           (if (k : Int) ≥ st.workqueue_max then (k : Int) else st.workqueue_max)) },
       if (k : Int) ≥ st.workqueue_max then 0 else d) := by
  simp only [knc_poll_accept_stage, hk0, ne_eq, not_false_eq_true, if_true,
    min_eq_left hk]
  by_cases hge : (k : Int) ≥ st.workqueue_max
  · simp [hge]
  · simp [hge]

/-- State-and-delay description of one whole poll cycle under a
transparent receive buffer: nothing pending is stale, the reply holds no
records, the accepted count is `k ≤ |queue|`.  Covers both the flushing
and non-flushing cycle. -/
theorem knc_poll_master (stale : Work → Bool → Bool) (st : KncState)
    (buf0 : Nat → Nat) (txok : Bool) (rx : Nat → Nat) (k : Nat)
    (hstale : ∀ w ∈ st.workqueue, stale w false = false)
    (hnorec : ∀ o ∈ spiRecordOffsets 0x1000,
      rx o >>> 6 ≠ KNC_REPLY_NONCE_FOUND ∧ rx o >>> 6 ≠ KNC_REPLY_WORK_DONE)
    (hacc : get_u16be rx 6 = k)
    (hk : k ≤ st.workqueue.length) :
    (knc_poll stale st buf0 txok rx).st.workqueue = st.workqueue.drop k ∧
    (knc_poll stale st buf0 txok rx).st.next_id = st.next_id + k ∧
    (knc_poll stale st buf0 txok rx).st.devicework =
      (if st.need_flush then [] else st.devicework) ++
        (st.workqueue.take k).enum.map
          (fun (iw : Nat × Work) => ((st.next_id + iw.1) % 0x8000, iw.2)) ∧
    (knc_poll stale st buf0 txok rx).st.need_flush = false ∧
    (knc_poll stale st buf0 txok rx).st.workqueue_max =
      (if k ≠ 0 ∧ (k : Int) ≥ st.workqueue_max then (k : Int)
       else st.workqueue_max) ∧
    (knc_poll stale st buf0 txok rx).delay_usecs =
      (if st.need_flush then 0
       else if k ≠ 0 ∧ (k : Int) ≥ st.workqueue_max then 0
       else KNC_POLL_INTERVAL_US) ∧
    (knc_poll stale st buf0 txok rx).events = [] ∧
    (knc_poll stale st buf0 txok rx).txbuf =
      knc_poll_txbuf st.need_flush st.next_id st.workqueue buf0 := by
  have hst1 := prune_eq_of_no_stale stale st hstale
  simp only [knc_poll, hst1, hacc]
  rw [show ({ st with
        queue_full := decide (st.workqueue_size ≥ st.workqueue_max) } :
        KncState).devicework = st.devicework from rfl]
  rw [poll_records_noop rx st.devicework hnorec]
  by_cases hnf : st.need_flush
  · simp only [knc_poll_flush_stage, hnf, if_true]
    rcases Nat.eq_zero_or_pos k with hk0 | hkpos
    · subst hk0
      rw [accept_stage_zero]
      simp [hnf]
    · have hk0 : k ≠ 0 := Nat.pos_iff_ne_zero.mp hkpos
      rw [accept_stage_spec k _ _ hk0 (by simpa using hk)]
      by_cases hge : (k : Int) ≥ st.workqueue_max
      · simp [hnf, hk0, hge]
      · simp [hnf, hk0, hge]
  · simp only [knc_poll_flush_stage, hnf, if_false, Bool.false_eq_true]
    rcases Nat.eq_zero_or_pos k with hk0 | hkpos
    · subst hk0
      rw [accept_stage_zero]
      simp [hnf]
    · have hk0 : k ≠ 0 := Nat.pos_iff_ne_zero.mp hkpos
      rw [accept_stage_spec k _ _ hk0 (by simpa using hk)]
      by_cases hge : (k : Int) ≥ st.workqueue_max
      · simp [hnf, hk0, hge]
      · simp [hnf, hk0, hge]

theorem accept_stage_max_delay (k : Nat) (st : KncState) (d : Nat) (hk0 : k ≠ 0)
    (hge : (k : Int) ≥ st.workqueue_max) :
    ((knc_poll_accept_stage k st d).1).workqueue_max = (k : Int) ∧
    (knc_poll_accept_stage k st d).2 = 0 := by
  simp [knc_poll_accept_stage, hk0, hge]

/-- Claim C1 (amended; the original is refuted by
`c1_counterexample`): in a poll cycle whose accepted count equals the
current capacity, the capacity value stays unchanged, but — because the
code tests `workaccept >= workqueue_max` — the next poll is nonetheless
scheduled with zero delay; the immediate reschedule fires at equality,
not only on strict growth. -/
theorem c1_accept_at_capacity_keeps_capacity_but_zero_delay
    (stale : Work → Bool → Bool) (st : KncState) (buf0 : Nat → Nat)
    (txok : Bool) (rx : Nat → Nat) (k : Nat) (hk0 : k ≠ 0)
    (hacc : get_u16be rx 6 = k) (heq : (k : Int) = st.workqueue_max) :
    (knc_poll stale st buf0 txok rx).st.workqueue_max = st.workqueue_max ∧
    (knc_poll stale st buf0 txok rx).delay_usecs = 0 := by
  simp only [knc_poll, hacc]
  set fl := knc_poll_flush_stage
    { knc_prune_local_queue stale st with
      devicework := (knc_poll_records rx
        (knc_prune_local_queue stale st).devicework).1 }
    KNC_POLL_INTERVAL_US with hfl
  have hflmax : fl.1.workqueue_max = st.workqueue_max := by
    rw [hfl, flush_stage_max]; rfl
  have h := accept_stage_max_delay k fl.1 fl.2 hk0
    (by rw [hflmax]; exact le_of_eq heq.symm)
  exact ⟨by rw [h.1, heq], h.2⟩


/-- Counterexample to claim C1 as stated: capacity 1, one pending item,
the device accepts exactly 1 (accepted count = capacity).  Capacity
stays 1, but the next poll is scheduled with zero delay, not after the
normal 10000 µs interval. -/
theorem c1_counterexample :
    c1state.workqueue_max = 1 ∧
    get_u16be rxAccept1 6 = 1 ∧
    (knc_poll stale0 c1state buf0c true rxAccept1).st.workqueue_max = 1 ∧
    (knc_poll stale0 c1state buf0c true rxAccept1).delay_usecs = 0 ∧
    (0 : Nat) ≠ KNC_POLL_INTERVAL_US :=
  ⟨rfl, rfl, rfl, rfl, by decide⟩

/-- Witness for C1 (amended): concrete poll accepting exactly the
current capacity. -/
theorem c1_witness :
    (knc_poll stale0 c1state buf0c true rxAccept1).st.workqueue_max =
      c1state.workqueue_max ∧
    (knc_poll stale0 c1state buf0c true rxAccept1).delay_usecs = 0 :=
  c1_accept_at_capacity_keeps_capacity_but_zero_delay stale0 c1state buf0c
    true rxAccept1 1 (by decide) rfl (by decide)

/-- Claim C2 (amended; the original is refuted by
`c2_counterexample`): `knc_poll` discards the result of the bus
exchange — the poll cycle is byte-for-byte identical whether the
exchange succeeded or failed, so a failed exchange does *not* abort
before record processing: whatever the receive buffer holds is decoded,
and the flush/acceptance stages still mutate the engine state. -/
theorem c2_poll_ignores_exchange_result (stale : Work → Bool → Bool)
    (st : KncState) (buf0 : Nat → Nat) (rx : Nat → Nat) :
    knc_poll stale st buf0 false rx = knc_poll stale st buf0 true rx := rfl


/-- Counterexample to claim C2 as stated: a poll cycle whose exchange
failed (result `false`) and whose receive buffer is all zeroes still
clears `need_flush`, drains the in-flight registry, and schedules the
next poll with zero delay instead of the normal interval — state is
mutated even though the exchange failed. -/
theorem c2_counterexample :
    c2state.need_flush = true ∧
    c2state.devicework ≠ [] ∧
    (knc_poll stale0 c2state buf0c false rxZero).st.need_flush = false ∧
    (knc_poll stale0 c2state buf0c false rxZero).st.devicework = [] ∧
    (knc_poll stale0 c2state buf0c false rxZero).delay_usecs = 0 ∧
    (0 : Nat) ≠ KNC_POLL_INTERVAL_US :=
  ⟨rfl, by decide, rfl, rfl, rfl, by decide⟩

theorem frame_id_roundtrip (x : Nat) (w : Work) :
    frame_work_id (knc_submit_frame x w) = x % 0x8000 := by
  have h2 : (knc_submit_frame x w).getD 2 0 = (x >>> 8) &&& 0x7f := rfl
  have h3 : (knc_submit_frame x w).getD 3 0 = x &&& 0xff := rfl
  simp only [frame_work_id, h2, h3]
  have e1 : x &&& 0xff = x % 2 ^ 8 := by
    simpa using Nat.and_pow_two_sub_one_eq_mod x 8
  have e2 : (x >>> 8) &&& 0x7f = (x >>> 8) % 2 ^ 7 := by
    simpa using Nat.and_pow_two_sub_one_eq_mod (x >>> 8) 7
  have e3 : x >>> 8 = x / 2 ^ 8 := Nat.shiftRight_eq_div_pow x 8
  rw [e1, e2, e3]
  norm_num
  omega

/-- Claim C3 (amended; the original is refuted by
`c3_counterexample`): the acceptance insert (`HASH_ADD_INT`) performs no
collision check whatsoever — on a wraparound collision the stale entry
is *not* evicted and no warning path exists; the new entry is simply
appended alongside it, and every pre-existing registry entry (colliding
or not) is still live after the insert. -/
theorem c3_insert_never_evicts (stale : Work → Bool → Bool) (st : KncState)
    (buf0 : Nat → Nat) (txok : Bool) (rx : Nat → Nat) (k : Nat)
    (hstale : ∀ w ∈ st.workqueue, stale w false = false)
    (hnorec : ∀ o ∈ spiRecordOffsets 0x1000,
      rx o >>> 6 ≠ KNC_REPLY_NONCE_FOUND ∧ rx o >>> 6 ≠ KNC_REPLY_WORK_DONE)
    (hflush : st.need_flush = false)
    (hacc : get_u16be rx 6 = k)
    (hk : k ≤ st.workqueue.length) :
    (knc_poll stale st buf0 txok rx).st.devicework =
      st.devicework ++
        (st.workqueue.take k).enum.map
          (fun (iw : Nat × Work) => ((st.next_id + iw.1) % 0x8000, iw.2)) ∧
    (∀ e ∈ st.devicework, e ∈ (knc_poll stale st buf0 txok rx).st.devicework) := by
  obtain ⟨-, -, hdw, -, -, -, -, -⟩ :=
    knc_poll_master stale st buf0 txok rx k hstale hnorec hacc hk
  rw [hflush] at hdw
  simp only [Bool.false_eq_true, if_false] at hdw
  refine ⟨hdw, ?_⟩
  intro e he
  rw [hdw]
  exact List.mem_append_left _ he


/-- Counterexample to claim C3 as stated: the registry already holds a
live entry under identifier 0 (a wraparound collision with
`next_id = 0`); the device accepts the pending item, and after the
insert two live entries share identifier 0 — nothing was evicted. -/
theorem c3_counterexample :
    (knc_poll stale0 c3state buf0c true rxAccept1).st.devicework =
      [(0, w0), (0, w1)] ∧
    ¬ (((knc_poll stale0 c3state buf0c true rxAccept1).st.devicework.map
        Prod.fst).Nodup) := by
  have h : (knc_poll stale0 c3state buf0c true rxAccept1).st.devicework =
      [(0, w0), (0, w1)] := rfl
  refine ⟨h, ?_⟩
  rw [h]
  decide

/-- Witness for C3 (amended): the collision scenario of
`c3_counterexample`, obtained through the general theorem. -/
theorem c3_witness :
    (knc_poll stale0 c3state buf0c true rxAccept1).st.devicework =
      c3state.devicework ++
        (c3state.workqueue.take 1).enum.map
          (fun (iw : Nat × Work) => ((c3state.next_id + iw.1) % 0x8000, iw.2)) :=
  (c3_insert_never_evicts stale0 c3state buf0c true rxAccept1 1
    (by decide) (by decide) rfl rfl (by decide)).1

/-- Claim C4 (amended; the original is refuted by
`c4_counterexample`): in a poll cycle entered with `need_flush` set, the
registry drain happens *before* the accepted pending items are moved in,
not after — so at the end of the cycle the In-Flight Registry holds
exactly the items accepted in that same cycle (it is empty only when the
cycle accepted nothing); `need_flush` is cleared and the next poll is
scheduled with zero delay. -/
theorem c4_flush_cycle_drains_before_accept (stale : Work → Bool → Bool)
    (st : KncState) (buf0 : Nat → Nat) (txok : Bool) (rx : Nat → Nat) (k : Nat)
    (hstale : ∀ w ∈ st.workqueue, stale w false = false)
    (hnorec : ∀ o ∈ spiRecordOffsets 0x1000,
      rx o >>> 6 ≠ KNC_REPLY_NONCE_FOUND ∧ rx o >>> 6 ≠ KNC_REPLY_WORK_DONE)
    (hflush : st.need_flush = true)
    (hacc : get_u16be rx 6 = k)
    (hk : k ≤ st.workqueue.length) :
    (knc_poll stale st buf0 txok rx).st.devicework =
      (st.workqueue.take k).enum.map
        (fun (iw : Nat × Work) => ((st.next_id + iw.1) % 0x8000, iw.2)) ∧
    (knc_poll stale st buf0 txok rx).st.need_flush = false ∧
    (knc_poll stale st buf0 txok rx).delay_usecs = 0 := by
  obtain ⟨-, -, hdw, hnf, -, hdel, -, -⟩ :=
    knc_poll_master stale st buf0 txok rx k hstale hnorec hacc hk
  rw [hflush] at hdw hdel
  simp only [if_true, List.nil_append] at hdw
  simp only [if_true] at hdel
  exact ⟨hdw, hnf, hdel⟩


/-- Counterexample to claim C4 as stated: a flush-carrying cycle with
one pending item that the device accepts ends with the In-Flight
Registry holding that freshly accepted item — the registry is *not*
empty at the end of the cycle, because the drain precedes the insert. -/
theorem c4_counterexample :
    c4state.need_flush = true ∧
    (knc_poll stale0 c4state buf0c true rxAccept1).st.devicework = [(0, w1)] ∧
    (knc_poll stale0 c4state buf0c true rxAccept1).st.devicework ≠ [] := by
  have h : (knc_poll stale0 c4state buf0c true rxAccept1).st.devicework =
      [(0, w1)] := rfl
  exact ⟨rfl, h, by rw [h]; decide⟩

/-- Witness for C4 (amended): the flush-cycle scenario of
`c4_counterexample`, obtained through the general theorem. -/
theorem c4_witness :
    (knc_poll stale0 c4state buf0c true rxAccept1).st.devicework =
      (c4state.workqueue.take 1).enum.map
        (fun (iw : Nat × Work) => ((c4state.next_id + iw.1) % 0x8000, iw.2)) ∧
    (knc_poll stale0 c4state buf0c true rxAccept1).st.need_flush = false ∧
    (knc_poll stale0 c4state buf0c true rxAccept1).delay_usecs = 0 :=
  c4_flush_cycle_drains_before_accept stale0 c4state buf0c true rxAccept1 1
    (by decide) (by decide) rfl rfl (by decide)

/-- Claim C6 (confirmed): in a poll cycle with `n` pending items of
which the device accepts `k ≤ n`, exactly the first `k` items in FIFO
order leave the Local Pending Queue and enter the In-Flight Registry in
order, the i-th receiving identifier `(next_id + i) mod 2^15` — the very
identifier its submission frame carried (bytes 2-3) — and consecutive
identifiers increase by exactly one modulo 2^15. -/
theorem c6_fifo_acceptance_in_order (stale : Work → Bool → Bool) (st : KncState)
    (buf0 : Nat → Nat) (txok : Bool) (rx : Nat → Nat) (k : Nat)
    (hstale : ∀ w ∈ st.workqueue, stale w false = false)
    (hnorec : ∀ o ∈ spiRecordOffsets 0x1000,
      rx o >>> 6 ≠ KNC_REPLY_NONCE_FOUND ∧ rx o >>> 6 ≠ KNC_REPLY_WORK_DONE)
    (hacc : get_u16be rx 6 = k)
    (hk : k ≤ st.workqueue.length) :
    (knc_poll stale st buf0 txok rx).st.workqueue = st.workqueue.drop k ∧
    (knc_poll stale st buf0 txok rx).st.next_id = st.next_id + k ∧
    (∃ dw : DeviceWork, (knc_poll stale st buf0 txok rx).st.devicework =
      dw ++ (st.workqueue.take k).enum.map
        (fun (iw : Nat × Work) => ((st.next_id + iw.1) % 0x8000, iw.2))) ∧
    (∀ i, i < k → ∀ w : Work,
      frame_work_id (knc_submit_frame (st.next_id + i) w) =
        (st.next_id + i) % 0x8000) ∧
    (∀ i, i + 1 < k →
      (st.next_id + (i + 1)) % 0x8000 =
        ((st.next_id + i) % 0x8000 + 1) % 0x8000) ∧
    (knc_poll stale st buf0 txok rx).txbuf =
      knc_poll_txbuf st.need_flush st.next_id st.workqueue buf0 := by
  obtain ⟨hq, hid, hdw, -, -, -, -, htx⟩ :=
    knc_poll_master stale st buf0 txok rx k hstale hnorec hacc hk
  refine ⟨hq, hid, ⟨_, hdw⟩, ?_, ?_, htx⟩
  · intro i hi w
    exact frame_id_roundtrip (st.next_id + i) w
  · intro i hi
    conv_lhs => rw [show st.next_id + (i + 1) = st.next_id + i + 1 by omega]
    rw [Nat.add_mod]

/-- Witness for C6: the concrete accepted-prefix scenario of
`c1state` (capacity 1, one pending item, one accepted). -/
theorem c6_witness :
    (knc_poll stale0 c1state buf0c true rxAccept1).st.workqueue =
      c1state.workqueue.drop 1 ∧
    (knc_poll stale0 c1state buf0c true rxAccept1).st.next_id =
      c1state.next_id + 1 :=
  have h := c6_fifo_acceptance_in_order stale0 c1state buf0c true rxAccept1 1
    (by decide) (by decide) rfl (by decide)
  ⟨h.1, h.2.1⟩

/-- Claim C5 (amended; the original is refuted by
`c5_counterexample`): when `need_flush` is set at poll time, `knc_poll`
emits a full 0x30-byte block at the front of the outgoing buffer: its
byte 0 carries command nibble 3 in the high 4 bits, but bytes 1..0x2f
are the prior contents of the stack scratch buffer — data bytes, not
padding.  Only `knc_clean_flush` (used at initialisation) sends the
single 1-byte flush frame followed by padding. -/
theorem c5_flush_emission_full_frame (stale : Work → Bool → Bool)
    (st : KncState) (buf0 : Nat → Nat) (txok : Bool) (rx : Nat → Nat)
    (hf : st.need_flush = true) :
    (knc_poll stale st buf0 txok rx).txbuf.take 0x30 =
      (knc_flush_emission buf0).map SpiByte.data ∧
    (knc_flush_emission buf0).getD 0 0 = KNC_REQ_FLUSH_QUEUE <<< 4 ∧
    (knc_flush_emission buf0).length = 0x30 ∧
    (∀ i, 0 < i → i < 0x30 → (knc_flush_emission buf0).getD i 0 = buf0 i) ∧
    knc_clean_flush_txbuf =
      SpiByte.data (KNC_REQ_FLUSH_QUEUE <<< 4) ::
        List.replicate (0x1000 - 1) SpiByte.nop := by
  have hlen : (knc_flush_emission buf0).length = 0x30 := by
    simp [knc_flush_emission]
  refine ⟨?_, rfl, hlen, ?_, rfl⟩
  · have htx : (knc_poll stale st buf0 txok rx).txbuf =
        knc_poll_txbuf (knc_prune_local_queue stale st).need_flush
          (knc_prune_local_queue stale st).next_id
          (knc_prune_local_queue stale st).workqueue buf0 := rfl
    have hnf : (knc_prune_local_queue stale st).need_flush = true := hf
    rw [htx]
    simp only [knc_poll_txbuf, hnf, if_true]
    rw [List.map_append, List.append_assoc]
    have hlen2 : ((knc_flush_emission buf0).map SpiByte.data).length = 0x30 := by
      simp [hlen]
    rw [List.take_append_of_le_length (by rw [hlen2])]
    simp [hlen2]
  · intro i h0 h48
    simp only [knc_flush_emission]
    rw [List.getD_eq_getElem?_getD, List.getElem?_map, List.getElem?_range h48]
    simp [show i ≠ 0 from by omega]


/-- Counterexample to claim C5 as stated: a flush-carrying poll with no
pending work (so no submission frames at all, and everything after the
flush command should be padding per the claim).  Byte 0 of the outgoing
buffer is the flush command, but byte 1 is an emitted data byte — the
scratch buffer's content — not a padding nop. -/
theorem c5_counterexample :
    (knc_poll stale0 c5state buf0c true rxZero).txbuf.getD 0 SpiByte.nop =
      SpiByte.data 0x30 ∧
    (knc_poll stale0 c5state buf0c true rxZero).txbuf.getD 1 SpiByte.nop =
      SpiByte.data 0 ∧
    SpiByte.data 0 ≠ SpiByte.nop ∧
    c5state.workqueue = [] :=
  ⟨rfl, rfl, by decide, rfl⟩

/-- Witness for C5 (amended): the flush emission of a concrete
flush-carrying poll is the mapped 0x30-byte block. -/
theorem c5_witness :
    (knc_poll stale0 c5state buf0c true rxZero).txbuf.take 0x30 =
      (knc_flush_emission buf0c).map SpiByte.data :=
  (c5_flush_emission_full_frame stale0 c5state buf0c true rxZero rfl).1

theorem mem_after_optional_prune (stale : Work → Bool → Bool) (s : KncState)
    (w : Work) (hw : stale w false = false) (hmem : w ∈ s.workqueue) (c : Bool) :
    w ∈ ((if c = true then knc_prune_local_queue stale s else s)).workqueue := by
  split
  · simp only [knc_prune_local_queue]
    exact List.mem_filter.mpr ⟨hmem, by simp [hw]⟩
  · exact hmem

/-- Claim C8 (confirmed): `knc_queue_append` appends and returns true
when the queue size is below capacity; at capacity it prunes stale
entries first and re-checks, appending and returning true if pruning
freed space; and it returns plain `false` — with the queue left
unchanged — exactly when the queue is still at capacity after pruning.
(Stated under the driver's own invariants that the size counter matches
the queue and never exceeds capacity.) -/
theorem c8_enqueue_backpressure (stale : Work → Bool → Bool) (st : KncState)
    (w : Work)
    (h1 : st.workqueue_size = (st.workqueue.length : Int))
    (h2 : st.workqueue_size ≤ st.workqueue_max) :
    (st.workqueue_size < st.workqueue_max →
      (knc_queue_append stale st w).1 = true ∧
      (stale w false = false → w ∈ (knc_queue_append stale st w).2.workqueue)) ∧
    (st.workqueue_size ≥ st.workqueue_max →
      ((st.workqueue.filter (fun x => !stale x false)).length : Int) <
        st.workqueue_max →
      (knc_queue_append stale st w).1 = true ∧
      (stale w false = false → w ∈ (knc_queue_append stale st w).2.workqueue)) ∧
    ((knc_queue_append stale st w).1 = false ↔
      (st.workqueue_size ≥ st.workqueue_max ∧
       ((st.workqueue.filter (fun x => !stale x false)).length : Int) ≥
         st.workqueue_max)) ∧
    ((knc_queue_append stale st w).1 = false →
      (knc_queue_append stale st w).2.workqueue = st.workqueue ∧
      (knc_queue_append stale st w).2.workqueue_size = st.workqueue_size) := by
  have hkle : (st.workqueue.filter (fun x => !stale x false)).length ≤
      st.workqueue.length := List.length_filter_le _ _
  by_cases hfull : st.workqueue_size ≥ st.workqueue_max
  · -- queue at capacity: the append path goes through the prune
    have hsize1 : (knc_prune_local_queue stale st).workqueue_size =
        ((st.workqueue.filter (fun x => !stale x false)).length : Int) := by
      rw [prune_result]
      exact pruned_size st.workqueue_size st.workqueue_max st.workqueue.length
        (st.workqueue.filter (fun x => !stale x false)).length h1 hkle
    have hqf : (knc_prune_local_queue stale st).queue_full =
        decide (((st.workqueue.filter (fun x => !stale x false)).length : Int) ≥
          st.workqueue_max) := by
      rw [prune_result]
      simp only
      congr 1
      rw [pruned_size st.workqueue_size st.workqueue_max st.workqueue.length
        (st.workqueue.filter (fun x => !stale x false)).length h1 hkle]
    by_cases hkge : ((st.workqueue.filter (fun x => !stale x false)).length : Int) ≥
        st.workqueue_max
    · -- still full after pruning: returns false, queue untouched
      have hqft : (knc_prune_local_queue stale st).queue_full = true := by
        rw [hqf]; simp [hkge]
      have hr : knc_queue_append stale st w =
          (false, knc_prune_local_queue stale st) := by
        simp only [knc_queue_append]
        rw [if_pos hfull, if_pos hqft]
      have hkeq : (st.workqueue.filter (fun x => !stale x false)).length =
          st.workqueue.length := by
        have hmx : st.workqueue_size = st.workqueue_max := le_antisymm h2 hfull
        have : ((st.workqueue.length : Int)) ≤
            ((st.workqueue.filter (fun x => !stale x false)).length : Int) := by
          rw [← h1, hmx]; exact hkge
        omega
      have hkept : st.workqueue.filter (fun x => !stale x false) = st.workqueue :=
        (List.filter_sublist st.workqueue).eq_of_length hkeq
      refine ⟨?_, ?_, ?_, ?_⟩
      · intro h; exact absurd h (not_lt.mpr hfull)
      · intro _ hlt; exact absurd hlt (not_lt.mpr hkge)
      · rw [hr]; exact iff_of_true rfl ⟨hfull, hkge⟩
      · intro _
        rw [hr, prune_result]
        refine ⟨hkept, ?_⟩
        simp only
        rw [pruned_size st.workqueue_size st.workqueue_max st.workqueue.length
          (st.workqueue.filter (fun x => !stale x false)).length h1 hkle, hkeq, h1]
    · -- pruning freed space: append succeeds
      have hqff : (knc_prune_local_queue stale st).queue_full = false := by
        rw [hqf]; simp [hkge]
      have hr1 : (knc_queue_append stale st w).1 = true := by
        simp only [knc_queue_append]
        rw [if_pos hfull, if_neg (by rw [hqff]; exact Bool.false_ne_true)]
      have hrq : (knc_queue_append stale st w).2.workqueue =
          ((if (decide ((knc_prune_local_queue stale st).workqueue_size + 1 ≥
              (knc_prune_local_queue stale st).workqueue_max)) = true then
            knc_prune_local_queue stale
              { knc_prune_local_queue stale st with
                workqueue := (knc_prune_local_queue stale st).workqueue ++ [w]
                workqueue_size := (knc_prune_local_queue stale st).workqueue_size + 1
                queue_full := decide ((knc_prune_local_queue stale st).workqueue_size + 1 ≥
                  (knc_prune_local_queue stale st).workqueue_max) }
          else
            { knc_prune_local_queue stale st with
              workqueue := (knc_prune_local_queue stale st).workqueue ++ [w]
              workqueue_size := (knc_prune_local_queue stale st).workqueue_size + 1
              queue_full := decide ((knc_prune_local_queue stale st).workqueue_size + 1 ≥
                (knc_prune_local_queue stale st).workqueue_max) })).workqueue := by
        simp only [knc_queue_append]
        rw [if_pos hfull, if_neg (by rw [hqff]; exact Bool.false_ne_true)]
      refine ⟨?_, ?_, ?_, ?_⟩
      · intro h; exact absurd h (not_lt.mpr hfull)
      · intro _ _
        refine ⟨hr1, ?_⟩
        intro hw
        rw [hrq]
        exact mem_after_optional_prune stale _ w hw
          (List.mem_append_right _ (List.mem_singleton.mpr rfl)) _
      · rw [hr1]
        exact iff_of_false (by simp) (fun hc => absurd hc.2 hkge)
      · intro hc; rw [hr1] at hc; cases hc
  · -- below capacity: plain append, returns true
    have hr1 : (knc_queue_append stale st w).1 = true := by
      simp only [knc_queue_append]
      rw [if_neg hfull]
    have hrq : (knc_queue_append stale st w).2.workqueue =
        ((if (decide (st.workqueue_size + 1 ≥ st.workqueue_max)) = true then
          knc_prune_local_queue stale
            { st with
              workqueue := st.workqueue ++ [w]
              workqueue_size := st.workqueue_size + 1
              queue_full := decide (st.workqueue_size + 1 ≥ st.workqueue_max) }
        else
          { st with
            workqueue := st.workqueue ++ [w]
            workqueue_size := st.workqueue_size + 1
            queue_full := decide (st.workqueue_size + 1 ≥ st.workqueue_max) })).workqueue := by
      simp only [knc_queue_append]
      rw [if_neg hfull]
    refine ⟨?_, ?_, ?_, ?_⟩
    · intro _
      refine ⟨hr1, ?_⟩
      intro hw
      rw [hrq]
      exact mem_after_optional_prune stale _ w hw
        (List.mem_append_right _ (List.mem_singleton.mpr rfl)) _
    · intro hc; exact absurd hc hfull
    · rw [hr1]
      exact iff_of_false (by simp) (fun hc => absurd hc.1 hfull)
    · intro hc; rw [hr1] at hc; cases hc

/-- Witness for C8: enqueueing into the fresh (empty, capacity-1)
device state succeeds. -/
theorem c8_witness :
    (knc_queue_append stale0 knc_init w0).1 = true :=
  ((c8_enqueue_backpressure stale0 knc_init w0 (by decide) (by decide)).1
    (by decide)).1

/-- Claim C9 (confirmed): for a decoded reply record whose identifier is
found in the In-Flight Registry, a NonceFound record forwards the
matched item and decoded nonce (route key `(asicno, coreno)`) and leaves
the registry untouched — the item stays in flight — while a WorkDone
record removes exactly that entry from the registry (one entry fewer)
and reports one unit (`0x100000000` hashes) of completed work; only
WorkDone ends the item's in-flight lifetime. -/
theorem c9_record_routing (rx : Nat → Nat) (off : Nat) (dw : DeviceWork)
    (evs : List KncEvent) (w : Work)
    (hfound : hashFindInt dw (get_u16be rx (off + 2)) = some w) :
    (rx off >>> 6 = KNC_REPLY_NONCE_FOUND →
      knc_process_record rx (dw, evs) off =
        (dw, evs ++ [KncEvent.nonceFound ((rx off &&& 0x38) >>> 3)
          (get_u32be rx (off + 8)) w (le32toh (get_u32be rx (off + 4)))])) ∧
    (rx off >>> 6 = KNC_REPLY_WORK_DONE →
      knc_process_record rx (dw, evs) off =
        (hashDelLast dw (get_u16be rx (off + 2)),
         evs ++ [KncEvent.hashesDone ((rx off &&& 0x38) >>> 3)
           (get_u32be rx (off + 8)) 0x100000000]) ∧
      (hashDelLast dw (get_u16be rx (off + 2))).length + 1 = dw.length) := by
  constructor
  · intro h1
    simp [knc_process_record, h1, hfound, KNC_REPLY_NONCE_FOUND,
      KNC_REPLY_WORK_DONE]
  · intro h2
    constructor
    · simp [knc_process_record, h2, hfound, KNC_REPLY_NONCE_FOUND,
        KNC_REPLY_WORK_DONE]
    · obtain ⟨e, hfind, hsnd⟩ := Option.map_eq_some'.mp hfound
      have hm : e ∈ dw.reverse := List.mem_of_find?_eq_some hfind
      have hp := List.find?_some hfind
      have hlen := @List.length_eraseP_of_mem _ dw.reverse e
        (fun x => x.1 == get_u16be rx (off + 2)) hm hp
      have hpos : 0 < dw.reverse.length := List.length_pos_of_mem hm
      simp only [hashDelLast, List.length_reverse] at *
      omega


/-- Witness for C9: a NonceFound record (type bits 01) at offset 12
about identifier 7, which is in flight; the item is forwarded and the
registry is unchanged. -/
theorem c9_witness :
    knc_process_record rx9 ([(7, w0)], []) 12 =
      ([(7, w0)], [KncEvent.nonceFound ((rx9 12 &&& 0x38) >>> 3)
        (get_u32be rx9 (12 + 8)) w0 (le32toh (get_u32be rx9 (12 + 4)))]) :=
  (c9_record_routing rx9 12 [(7, w0)] [] w0 (by decide)).1 rfl
